import Mathlib

/-!
Shallow embedding of the JK-BMS password retrieval tool
(files `jikong.py` and `bt.py`).

Bytes are modelled as natural numbers; byte strings as `List Nat`.
A Python method that can raise an exception is modelled with `Option`
or `Except`, where `none` / `.error` is the raised exception.
-/

/-- Source `jikong.py`, `calc_crc`: 8-bit sum of all bytes (`sum(b) & 0xFF`). -/
def calc_crc (message_bytes : List Nat) : Nat :=
  message_bytes.sum % 256

/-- Source `jikong.py`, `_jk_command`: builds the outbound frame.
`none` models the `assert n <= 13` failure (PayloadTooLargeError). -/
def _jk_command (address : Nat) (value : List Nat) : Option (List Nat) :=
  let n := value.length
  if n ≤ 13 then
    let frame := [0xAA, 0x55, 0x90, 0xEB, address, n] ++ value ++ List.replicate (13 - n) 0
    some (frame ++ [calc_crc frame])
  else
    none

/-- Source `jikong.py`: `MIN_RESPONSE_SIZE = 300`. -/
def MIN_RESPONSE_SIZE : Nat := 300

/-- Source `jikong.py`: `MAX_RESPONSE_SIZE = 320` (only used for a log warning). -/
def MAX_RESPONSE_SIZE : Nat := 320

/-- Source `jikong.py`, `_notification_handler`: the inbound magic header
`bytes([0x55, 0xAA, 0xEB, 0x90])`. -/
def HEADER : List Nat := [0x55, 0xAA, 0xEB, 0x90]

/-- Source `jikong.py`, `JKBt._buffer_crc_check`: compares the 8-bit sum of
`buffer[0:299]` against `buffer[299]`.  Reading `buffer[299]` raises
`IndexError` when the buffer is shorter than 300 bytes; that exception is
modelled as `none`. -/
def _buffer_crc_check (buffer : List Nat) : Option Bool :=
  match buffer[MIN_RESPONSE_SIZE - 1]? with
  | none => none
  | some crc_expected => some (calc_crc (buffer.take (MIN_RESPONSE_SIZE - 1)) = crc_expected)

/-- Models Python `buffer.index(HEADER)` combined with `HEADER in buffer`:
the index of the first contiguous occurrence of the 4-byte header, `none`
when the header does not occur. -/
def find_header_idx : List Nat → Option Nat
  | [] => none
  | b :: rest =>
    if (b :: rest).take 4 = HEADER then some 0
    else (find_header_idx rest).map (· + 1)

/-- Source `jikong.py`, `JKBt._notification_handler`, acting on the
accumulation buffer.  Returns `none` when the handler raises (the
`IndexError` inside the resynchronization re-check), otherwise
`some (buffer', decoded)` where `buffer'` is the accumulation buffer after
the call and `decoded = some m` exactly when `_decode_msg` was invoked
with the message bytes `m`. -/
def _notification_handler (buffer data : List Nat) : Option (List Nat × Option (List Nat)) :=
  let buf1 := (if data.take 4 = HEADER then [] else buffer) ++ data
  if MIN_RESPONSE_SIZE ≤ buf1.length then
    match _buffer_crc_check buf1 with
    | none => none
    | some crc_ok1 =>
      if crc_ok1 then
        some ([], some buf1)
      else
        match find_header_idx buf1 with
        | none => some ([], none)
        | some idx =>
          match _buffer_crc_check (buf1.drop idx) with
          | none => none
          | some crc_ok2 =>
            if crc_ok2 then some ([], some (buf1.drop idx))
            else some ([], none)
  else
    some (buf1, none)

/-- Feeds a list of notification fragments sequentially through
`_notification_handler`, starting from the given accumulation buffer.
Returns `none` if some call raises, otherwise the final buffer together
with the list of all messages passed to `_decode_msg`, in order. -/
def feed_fragments : List Nat → List (List Nat) → Option (List Nat × List (List Nat))
  | buffer, [] => some (buffer, [])
  | buffer, d :: rest =>
    match _notification_handler buffer d with
    | none => none
    | some (buf2, dec) =>
      match feed_fragments buf2 rest with
      | none => none
      | some (bufF, decs) => some (bufF, dec.toList ++ decs)

/-- Total byte count of a list of fragments. -/
def sumLens (l : List (List Nat)) : Nat :=
  (l.map List.length).sum

/-!
Embedding of `bt.py`, class `FuturesPool`.

The pool `self._futures` (a dict from tag to `asyncio.Future`) is modelled
as an association list from tag to the state of its future.  A future is
either still pending or already completed with a value.
-/

/-- State of one `asyncio.Future` held in the pool. -/
inductive FutState where
  | pending : FutState
  | done : List Nat → FutState
deriving DecidableEq

/-- The correlator state: `FuturesPool._futures`. -/
abbrev Pool := List (Nat × FutState)

/-- Models Python dict access `self._futures.get(name, None)` /
`name in self._futures`. -/
def find_fut : Pool → Nat → Option FutState
  | [], _ => none
  | (m, s) :: rest, n => if m = n then some s else find_fut rest n

/-- Replaces the state of an existing entry (models mutating the future
object stored under a key). -/
def set_entry : Pool → Nat → FutState → Pool
  | [], _, _ => []
  | (m, s) :: rest, n, st =>
    if m = n then (m, st) :: rest else (m, s) :: set_entry rest n st

/-- Source `bt.py`: `NameType = Union[str, int, Tuple[...]]` — a wait tag is
either a single tag or a tuple of tags. -/
inductive NameT where
  | leaf : Nat → NameT
  | group : List Nat → NameT

namespace FuturesPool

/-- Source `bt.py`, `FuturesPool.acquire`, scalar branch:
`assert name not in self._futures` then `self._futures[name] = Future()`.
The raised `AssertionError` (spec: `DuplicateWaitError`) is modelled as
`Except.error` carrying the pool state at the moment it is raised. -/
def acquire_one (pool : Pool) (n : Nat) : Except Pool Pool :=
  if (find_fut pool n).isSome then Except.error pool
  else Except.ok (pool ++ [(n, FutState.pending)])

/-- Source `bt.py`, `FuturesPool.acquire`, tuple branch:
`tuple(self.acquire(n) for n in name)` acquires the sub-tags one by one;
an assertion failure aborts the remaining acquisitions but leaves the
earlier ones registered. -/
def acquire_group (pool : Pool) : List Nat → Except Pool Pool
  | [] => Except.ok pool
  | n :: rest =>
    match acquire_one pool n with
    | Except.error p => Except.error p
    | Except.ok p => acquire_group p rest

/-- Source `bt.py`, `FuturesPool.acquire`. -/
def acquire (pool : Pool) : NameT → Except Pool Pool
  | NameT.leaf n => acquire_one pool n
  | NameT.group ns => acquire_group pool ns

/-- Source `bt.py`, `FuturesPool.set_result`: looks the tag up; missing tag
is a silent no-op; calling `fut.set_result` on a future that is already
done raises `asyncio.InvalidStateError`, modelled as `Except.error ()`. -/
def set_result (pool : Pool) (n : Nat) (value : List Nat) : Except Unit Pool :=
  match find_fut pool n with
  | none => Except.ok pool
  | some FutState.pending => Except.ok (set_entry pool n (FutState.done value))
  | some (FutState.done _) => Except.error ()

end FuturesPool

/-!
Embedding of `bt.py`, `BtBms.start_notify`.

The collaborator call `self.client.start_notify(cs, callback)` is modelled
by an oracle `attempt` mapping each candidate characteristic identifier to
either success or a raised error (errors are identified by naturals).
-/

/-- The `for cs in char_specifier` loop of `BtBms.start_notify`, carrying
the current value of the local variable `exception` (initially `None`).
On success the loop returns the succeeding candidate; after the loop the
saved exception is re-raised. -/
def start_notify_loop (attempt : Nat → Except Nat Unit) :
    List Nat → Option Nat → Except (Option Nat) Nat
  | [], exc => Except.error exc
  | cs :: rest, _exc =>
    match attempt cs with
    | Except.ok _ => Except.ok cs
    | Except.error e => start_notify_loop attempt rest (some e)

/-- Source `bt.py`, `BtBms.start_notify`, applied to a list of candidate
characteristic identifiers. -/
def start_notify (attempt : Nat → Except Nat Unit) (char_specifier : List Nat) :
    Except (Option Nat) Nat :=
  start_notify_loop attempt char_specifier none

/-!
Embedding of `bt.py`, `BtBms._connect_with_scanner`.

The transport collaborators (scanner visibility and `_connect_client`) are
an oracle per attempt number; the procedure is modelled by the trace of
externally visible actions it performs, plus its outcome.
-/

/-- Outcome oracle for one connect attempt: whether the target address is
in the scanner's discovered set, and whether `_connect_client` succeeds. -/
structure ScanEnv where
  visible : Nat → Bool
  connect_ok : Nat → Bool

/-- Externally visible actions of `_connect_with_scanner`. -/
inductive ConnEvent where
  | checkVisible : Nat → Bool → ConnEvent
  | tryConnect : ℚ → Bool → ConnEvent
  | disconnectEv : ConnEvent
  | sleepEv : ℚ → ConnEvent
  | stopScan : ConnEvent
deriving DecidableEq

/-- Errors raised inside the retry loop: the device was not discovered, or
the connect attempt itself failed. -/
inductive ConnErr where
  | notDiscovered : Nat → ConnErr
  | connectFail : Nat → ConnErr
deriving DecidableEq

/-- Source `bt.py`, `BtBms._connect_with_scanner`, the `while True` retry
loop, starting at the given attempt number.  `fuel` bounds the recursion;
from the entry point (`attempt = 1`, `fuel = 8`) it never runs out because
the loop raises once `attempt` reaches 8.  Returns the event trace and
the outcome (`Except.error` models the final `raise`). -/
def scan_loop (env : ScanEnv) (timeout : ℚ) :
    Nat → Nat → List ConnEvent × Except ConnErr Unit
  | attempt, 0 => ([], Except.error (ConnErr.notDiscovered attempt))
  | attempt, fuel + 1 =>
    if env.visible attempt then
      if env.connect_ok attempt then
        ([ConnEvent.checkVisible attempt true, ConnEvent.tryConnect (timeout / 2) true,
          ConnEvent.stopScan], Except.ok ())
      else
        if attempt < 8 then
          let next := scan_loop env timeout (attempt + 1) fuel
          ([ConnEvent.checkVisible attempt true, ConnEvent.tryConnect (timeout / 2) false,
            ConnEvent.disconnectEv,
            ConnEvent.sleepEv ((0.2 : ℚ) * (1.5 : ℚ) ^ attempt)] ++ next.1, next.2)
        else
          ([ConnEvent.checkVisible attempt true, ConnEvent.tryConnect (timeout / 2) false,
            ConnEvent.disconnectEv, ConnEvent.stopScan],
           Except.error (ConnErr.connectFail attempt))
    else
      if attempt < 8 then
        let next := scan_loop env timeout (attempt + 1) fuel
        ([ConnEvent.checkVisible attempt false, ConnEvent.disconnectEv,
          ConnEvent.sleepEv ((0.2 : ℚ) * (1.5 : ℚ) ^ attempt)] ++ next.1, next.2)
      else
        ([ConnEvent.checkVisible attempt false, ConnEvent.disconnectEv, ConnEvent.stopScan],
         Except.error (ConnErr.notDiscovered attempt))

/-- Source `bt.py`, `BtBms._connect_with_scanner`: the loop starts with
`attempt = 1`; the timeout passed to each `_connect_client` call is
`timeout / 2`; the backoff sleep is `0.2 * (1.5 ** attempt)`. -/
def _connect_with_scanner (env : ScanEnv) (timeout : ℚ) :
    List ConnEvent × Except ConnErr Unit :=
  scan_loop env timeout 1 8

/-- Number of connect attempts in a trace (each attempt starts by polling
the scanner's discovered set). -/
def count_attempts : List ConnEvent → Nat
  | [] => 0
  | ConnEvent.checkVisible _ _ :: rest => count_attempts rest + 1
  | _ :: rest => count_attempts rest

set_option maxRecDepth 10000

/-!
Helper lemmas about `_jk_command`.
-/

lemma jk_command_eq (address : Nat) (value : List Nat) (h : value.length ≤ 13) :
    _jk_command address value =
      some (([0xAA, 0x55, 0x90, 0xEB, address, value.length] ++ value ++
             List.replicate (13 - value.length) 0) ++
            [calc_crc ([0xAA, 0x55, 0x90, 0xEB, address, value.length] ++ value ++
             List.replicate (13 - value.length) 0)]) := by
  simp [_jk_command, h]

lemma jk_pre_length (address : Nat) (value : List Nat) (h : value.length ≤ 13) :
    ([0xAA, 0x55, 0x90, 0xEB, address, value.length] ++ value ++
     List.replicate (13 - value.length) 0).length = 19 := by
  simp [List.length_append, List.length_replicate]
  omega

lemma jk_command_length (address : Nat) (value : List Nat) (frame : List Nat)
    (hf : _jk_command address value = some frame) : frame.length = 20 := by
  by_cases h : value.length ≤ 13
  · rw [jk_command_eq address value h] at hf
    obtain rfl : _ = frame := Option.some.injEq _ _ ▸ hf
    simp [List.length_append, List.length_replicate]
    omega
  · simp [_jk_command, h] at hf

/-- C5: Outbound frame construction.  For every target id byte and payload
of length at most 13, `_jk_command` produces a frame of total length 20:
the 4-byte outbound magic header, the target id byte, the length byte,
the payload zero-padded to 13 bytes, and a final checksum byte equal to
the 8-bit unsigned sum modulo 256 of the 19 preceding bytes.  For longer
payloads it fails (the `assert`, spec name `PayloadTooLargeError`) before
any I/O. -/
theorem claim_C5 (address : Nat) (value : List Nat) :
    (value.length ≤ 13 → (_jk_command address value).isSome = true) ∧
    (∀ frame, _jk_command address value = some frame →
      frame.length = 20 ∧
      frame.take 4 = [0xAA, 0x55, 0x90, 0xEB] ∧
      frame[4]? = some address ∧
      frame[5]? = some value.length ∧
      (frame.drop 6).take 13 = value ++ List.replicate (13 - value.length) 0 ∧
      frame[19]? = some ((frame.take 19).sum % 256)) ∧
    (13 < value.length → _jk_command address value = none) := by
  refine ⟨?_, ?_, ?_⟩
  · intro h
    rw [jk_command_eq address value h]
    rfl
  · intro frame hf
    have h : value.length ≤ 13 := by
      by_contra h
      simp [_jk_command, h] at hf
    rw [jk_command_eq address value h] at hf
    obtain rfl : _ = frame := Option.some.injEq _ _ ▸ hf
    have hpre := jk_pre_length address value h
    refine ⟨?_, ?_, ?_, ?_, ?_, ?_⟩
    · simp [List.length_append, List.length_replicate]
      omega
    · simp only [List.cons_append]
      rfl
    · simp only [List.cons_append, List.append_assoc]
      simp
    · simp only [List.cons_append, List.append_assoc]
      simp
    · show ((value ++ List.replicate (13 - value.length) 0) ++ _).take 13 = _
      rw [List.take_left']
      simp [List.length_append, List.length_replicate]
      omega
    · rw [List.take_left' hpre, List.getElem?_append_right hpre.le]
      rw [hpre]
      simp [calc_crc]
  · intro h
    have h2 : ¬ value.length ≤ 13 := by omega
    simp [_jk_command, h2]

/-- Concrete outbound frame for target id `0x97` and payload `[1, 2]`. -/
def c5frame : List Nat :=
  [0xAA, 0x55, 0x90, 0xEB, 0x97, 2, 1, 2, 0, 0, 0, 0, 0, 0, 0, 0, 0, 0, 0, 22]

theorem claim_C5_witness :
    (c5frame.length = 20 ∧
     c5frame.take 4 = [0xAA, 0x55, 0x90, 0xEB] ∧
     c5frame[4]? = some 0x97 ∧
     c5frame[5]? = some 2 ∧
     (c5frame.drop 6).take 13 = [1, 2] ++ List.replicate 11 0 ∧
     c5frame[19]? = some ((c5frame.take 19).sum % 256)) ∧
    _jk_command 0 (List.replicate 14 0) = none :=
  ⟨(claim_C5 0x97 [1, 2]).2.1 c5frame (by decide),
   (claim_C5 0 (List.replicate 14 0)).2.2 (by decide)⟩

/-!
Claim C1: round-trip through the frame layer.

The outbound frame is 20 bytes long and starts with the outbound header
`AA 55 90 EB`, while the inbound reassembly accepts nothing shorter than
`MIN_RESPONSE_SIZE = 300` bytes (and looks for the inbound header
`55 AA EB 90`), so feeding an outbound frame back through
`_notification_handler` never produces an accepted message.
-/

lemma singleton_take_ne_header (b : Nat) : ([b] : List Nat).take 4 ≠ HEADER := by
  intro h
  have := congrArg List.length h
  simp [HEADER] at this

lemma sumLens_map_singleton (l : List Nat) :
    sumLens (l.map fun b => [b]) = l.length := by
  induction l with
  | nil => rfl
  | cons b t ih =>
    simp [sumLens] at ih ⊢
    omega

lemma flatten_map_singleton (l : List Nat) :
    (l.map fun b => [b]).flatten = l := by
  induction l with
  | nil => rfl
  | cons b t ih => simp [ih]

lemma handler_small (buffer d : List Nat) (hd : d.take 4 ≠ HEADER)
    (hlen : (buffer ++ d).length < MIN_RESPONSE_SIZE) :
    _notification_handler buffer d = some (buffer ++ d, none) := by
  simp only [_notification_handler, if_neg hd]
  rw [if_neg (by omega)]

lemma feed_small : ∀ (frags : List (List Nat)) (buffer : List Nat),
    (∀ d ∈ frags, d.take 4 ≠ HEADER) →
    buffer.length + sumLens frags < MIN_RESPONSE_SIZE →
    feed_fragments buffer frags = some (buffer ++ frags.flatten, []) := by
  intro frags
  induction frags with
  | nil =>
    intro buffer _ _
    simp [feed_fragments]
  | cons d rest ih =>
    intro buffer hhd hlen
    have hsum : sumLens (d :: rest) = d.length + sumLens rest := by
      simp [sumLens]
    have hstep := handler_small buffer d (hhd d (by simp))
      (by simp [List.length_append]; omega)
    have hrest := ih (buffer ++ d) (fun d' hd' => hhd d' (by simp [hd']))
      (by simp [List.length_append]; omega)
    simp only [feed_fragments, hstep, hrest]
    simp

/-- C1 (amended): feeding the outbound frame produced by `_jk_command`
byte-for-byte through `_notification_handler` yields no accepted decoded
message at all; the 20 frame bytes merely accumulate in the reassembly
buffer, whose minimum acceptance size is 300 bytes. -/
theorem claim_C1 (address : Nat) (value : List Nat) (frame : List Nat)
    (hf : _jk_command address value = some frame) :
    feed_fragments [] (frame.map fun b => [b]) = some (frame, []) := by
  have h20 := jk_command_length address value frame hf
  have := feed_small (frame.map fun b => [b]) []
    (by
      intro d hd
      obtain ⟨b, _, rfl⟩ := List.mem_map.mp hd
      exact singleton_take_ne_header b)
    (by simp [sumLens_map_singleton, h20, MIN_RESPONSE_SIZE])
  simpa [flatten_map_singleton] using this

/-- Concrete outbound frame for command `0x97` with the empty payload (the
frame the tool actually writes for the device-info request). -/
def c1frame : List Nat :=
  [0xAA, 0x55, 0x90, 0xEB, 0x97, 0, 0, 0, 0, 0, 0, 0, 0, 0, 0, 0, 0, 0, 0, 17]

theorem claim_C1_witness :
    feed_fragments [] (c1frame.map fun b => [b]) = some (c1frame, []) :=
  claim_C1 0x97 [] c1frame (by decide)

/-- C1 counterexample to the claim as stated: for the empty payload, the
produced frame fed byte-for-byte through the reassembly handler yields NO
accepted decoded message (the decoded-message list is empty), so the
original payload is not returned as an accepted message. -/
theorem claim_C1_counterexample :
    _jk_command 0x97 [] = some c1frame ∧
    feed_fragments [] (c1frame.map fun b => [b]) = some (c1frame, []) := by
  exact ⟨by decide, by decide⟩

/-!
Helper lemmas about the correlator pool.
-/

lemma find_fut_append_none (pool l2 : Pool) (n : Nat)
    (h : find_fut pool n = none) : find_fut (pool ++ l2) n = find_fut l2 n := by
  induction pool with
  | nil => simp
  | cons p rest ih =>
    obtain ⟨m, s⟩ := p
    by_cases hm : m = n
    · simp [find_fut, hm] at h
    · simp only [find_fut, hm, if_neg hm, List.cons_append] at h ⊢
      exact ih h

lemma find_fut_append_some (pool l2 : Pool) (n : Nat) (v : FutState)
    (h : find_fut pool n = some v) : find_fut (pool ++ l2) n = some v := by
  induction pool with
  | nil => simp [find_fut] at h
  | cons p rest ih =>
    obtain ⟨m, s⟩ := p
    by_cases hm : m = n
    · simp [find_fut, hm] at h ⊢
      exact h
    · simp only [find_fut, if_neg hm, List.cons_append] at h ⊢
      exact ih h

lemma find_fut_set_entry (pool : Pool) (n : Nat) (st : FutState)
    (h : (find_fut pool n).isSome = true) :
    find_fut (set_entry pool n st) n = some st := by
  induction pool with
  | nil => simp [find_fut] at h
  | cons p rest ih =>
    obtain ⟨m, s⟩ := p
    by_cases hm : m = n
    · simp [find_fut, set_entry, hm]
    · simp only [find_fut, set_entry, if_neg hm] at h ⊢
      exact ih h

/-- C6: Duplicate-wait fail-fast for plain tags.  `acquire` on a tag with
no pending entry succeeds and registers a pending wait; `acquire` on a tag
that is already pending fails (the `assert`, spec name
`DuplicateWaitError`) and the raise leaves the pool unchanged. -/
theorem claim_C6 (pool : Pool) (n : Nat) :
    (find_fut pool n = none →
      FuturesPool.acquire pool (NameT.leaf n) =
        Except.ok (pool ++ [(n, FutState.pending)]) ∧
      find_fut (pool ++ [(n, FutState.pending)]) n = some FutState.pending) ∧
    ((find_fut pool n).isSome = true →
      FuturesPool.acquire pool (NameT.leaf n) = Except.error pool) := by
  constructor
  · intro h
    constructor
    · simp [FuturesPool.acquire, FuturesPool.acquire_one, h]
    · rw [find_fut_append_none _ _ _ h]
      simp [find_fut]
  · intro h
    simp [FuturesPool.acquire, FuturesPool.acquire_one, h]

theorem claim_C6_witness :
    (FuturesPool.acquire [] (NameT.leaf 3) = Except.ok [(3, FutState.pending)] ∧
     find_fut [(3, FutState.pending)] 3 = some FutState.pending) ∧
    FuturesPool.acquire [(3, FutState.pending)] (NameT.leaf 3) =
      Except.error [(3, FutState.pending)] :=
  ⟨(claim_C6 [] 3).1 (by decide), (claim_C6 [(3, FutState.pending)] 3).2 (by decide)⟩

/-!
Claim C3: group acquire is not all-or-nothing in the source — the tuple
branch acquires sub-tags one by one and an assertion failure leaves the
sub-tags acquired so far registered in the pool.
-/

lemma acquire_group_leak : ∀ (pre : List Nat) (pool : Pool) (n : Nat) (post : List Nat),
    pre.Nodup → (∀ m ∈ pre, find_fut pool m = none) →
    ((find_fut pool n).isSome = true ∨ n ∈ pre) →
    FuturesPool.acquire_group pool (pre ++ n :: post) =
      Except.error (pool ++ pre.map fun m => (m, FutState.pending)) := by
  intro pre
  induction pre with
  | nil =>
    intro pool n post _ _ hdup
    rcases hdup with h | h
    · obtain ⟨v, hv⟩ := Option.isSome_iff_exists.mp h
      simp [FuturesPool.acquire_group, FuturesPool.acquire_one, h]
    · simp at h
  | cons a t ih =>
    intro pool n post hnd hfree hdup
    have ha : find_fut pool a = none := hfree a (by simp)
    have hstep : FuturesPool.acquire_one pool a =
        Except.ok (pool ++ [(a, FutState.pending)]) := by
      simp [FuturesPool.acquire_one, ha]
    have hfree2 : ∀ m ∈ t, find_fut (pool ++ [(a, FutState.pending)]) m = none := by
      intro m hm
      have hma : m ≠ a := by
        intro hEq
        exact (List.nodup_cons.mp hnd).1 (hEq ▸ hm)
      rw [find_fut_append_none _ _ _ (hfree m (by simp [hm]))]
      simp [find_fut, hma, Ne.symm hma]
    have hdup2 : (find_fut (pool ++ [(a, FutState.pending)]) n).isSome = true ∨ n ∈ t := by
      rcases hdup with h | h
      · obtain ⟨v, hv⟩ := Option.isSome_iff_exists.mp h
        left
        rw [find_fut_append_some _ _ _ _ hv]
        rfl
      · rcases List.mem_cons.mp h with h | h
        · left
          rw [find_fut_append_none _ _ _ (h ▸ ha)]
          simp [find_fut, h]
        · right
          exact h
    have := ih (pool ++ [(a, FutState.pending)]) n post (List.nodup_cons.mp hnd).2 hfree2 hdup2
    simp only [List.cons_append, FuturesPool.acquire_group, hstep, List.append_eq]
    rw [this]
    simp

/-- C3 (amended): `acquire` on a composite (tuple) tag containing an
already-pending sub-tag fails with the duplicate-wait assertion, but the
sub-tags acquired before the duplicate REMAIN registered in the pool
(a partial-group leak); the pool is unchanged only when the duplicate is
the first sub-tag of the group. -/
theorem claim_C3 (pool : Pool) (pre : List Nat) (n : Nat) (post : List Nat)
    (hnd : pre.Nodup) (hfree : ∀ m ∈ pre, find_fut pool m = none)
    (hdup : (find_fut pool n).isSome = true ∨ n ∈ pre) :
    FuturesPool.acquire pool (NameT.group (pre ++ n :: post)) =
      Except.error (pool ++ pre.map fun m => (m, FutState.pending)) :=
  acquire_group_leak pre pool n post hnd hfree hdup

theorem claim_C3_witness :
    FuturesPool.acquire [(2, FutState.pending)] (NameT.group ([1] ++ 2 :: [])) =
      Except.error ([(2, FutState.pending)] ++ [1].map fun m => (m, FutState.pending)) :=
  claim_C3 [(2, FutState.pending)] [1] 2 [] (by decide) (by decide) (by decide)

/-- C3 counterexample to the claim as stated: acquiring the composite tag
`(1, 2)` while sub-tag `2` is already pending fails, but the pool after
the failure additionally contains a pending entry for sub-tag `1` — the
pending map is NOT left unchanged. -/
theorem claim_C3_counterexample :
    FuturesPool.acquire [(2, FutState.pending)] (NameT.group [1, 2]) =
      Except.error [(2, FutState.pending), (1, FutState.pending)] ∧
    ([(2, FutState.pending), (1, FutState.pending)] : Pool) ≠ [(2, FutState.pending)] :=
  ⟨rfl, by decide⟩

/-- C10: `set_result` on a tag with no pool entry is a silent no-op; on a
tag whose entry is still pending it completes the future; on a tag whose
future is already completed it raises (`asyncio.InvalidStateError`) —
in particular a second `set_result` for the same tag before the waiter
removes the entry raises instead of overwriting or being ignored. -/
theorem claim_C10 (pool : Pool) (n : Nat) (v v2 w : List Nat) :
    (find_fut pool n = none → FuturesPool.set_result pool n v = Except.ok pool) ∧
    (find_fut pool n = some (FutState.done w) →
      FuturesPool.set_result pool n v = Except.error ()) ∧
    (find_fut pool n = some FutState.pending →
      FuturesPool.set_result pool n v = Except.ok (set_entry pool n (FutState.done v)) ∧
      FuturesPool.set_result (set_entry pool n (FutState.done v)) n v2 = Except.error ()) := by
  refine ⟨?_, ?_, ?_⟩
  · intro h
    simp [FuturesPool.set_result, h]
  · intro h
    simp [FuturesPool.set_result, h]
  · intro h
    constructor
    · simp [FuturesPool.set_result, h]
    · have h2 : find_fut (set_entry pool n (FutState.done v)) n = some (FutState.done v) :=
        find_fut_set_entry pool n (FutState.done v) (by simp [h])
      simp [FuturesPool.set_result, h2]

theorem claim_C10_witness :
    FuturesPool.set_result [] 3 [1] = Except.ok [] ∧
    FuturesPool.set_result [(3, FutState.done [2])] 3 [1] = Except.error () ∧
    (FuturesPool.set_result [(3, FutState.pending)] 3 [1] =
       Except.ok [(3, FutState.done [1])] ∧
     FuturesPool.set_result [(3, FutState.done [1])] 3 [2] = Except.error ()) :=
  ⟨(claim_C10 [] 3 [1] [2] []).1 (by decide),
   (claim_C10 [(3, FutState.done [2])] 3 [1] [2] [2]).2.1 (by decide),
   (claim_C10 [(3, FutState.pending)] 3 [1] [2] []).2.2 (by decide)⟩

/-!
Claim C7: notification-subscription fallback.  The loop variable
`exception` is overwritten on every failed candidate, so the error finally
re-raised is the one from the LAST failed candidate, not the first.
-/

lemma loop_all_fail : ∀ (init : List Nat) (attempt : Nat → Except Nat Unit)
    (exc : Option Nat) (c e : Nat),
    (∀ cs ∈ init, ∃ e2, attempt cs = Except.error e2) →
    attempt c = Except.error e →
    start_notify_loop attempt (init ++ [c]) exc = Except.error (some e) := by
  intro init
  induction init with
  | nil =>
    intro attempt exc c e _ hc
    simp [start_notify_loop, hc]
  | cons a t ih =>
    intro attempt exc c e hfail hc
    obtain ⟨e2, he2⟩ := hfail a (by simp)
    simp only [List.cons_append, start_notify_loop, he2]
    exact ih attempt (some e2) c e (fun cs hcs => hfail cs (by simp [hcs])) hc

lemma loop_first_ok : ∀ (init : List Nat) (attempt : Nat → Except Nat Unit)
    (exc : Option Nat) (c : Nat) (rest : List Nat),
    (∀ cs ∈ init, ∃ e2, attempt cs = Except.error e2) →
    attempt c = Except.ok () →
    start_notify_loop attempt (init ++ c :: rest) exc = Except.ok c := by
  intro init
  induction init with
  | nil =>
    intro attempt exc c rest _ hc
    simp [start_notify_loop, hc]
  | cons a t ih =>
    intro attempt exc c rest hfail hc
    obtain ⟨e2, he2⟩ := hfail a (by simp)
    simp only [List.cons_append, start_notify_loop, he2]
    exact ih attempt (some e2) c rest (fun cs hcs => hfail cs (by simp [hcs])) hc

/-- C7 (amended): `start_notify` tries the candidate characteristic
identifiers in order, returning the first that succeeds; when every
candidate fails it raises the error of the LAST failed candidate (the
local `exception` variable is overwritten on each failure), not the error
of the first one. -/
theorem claim_C7 (attempt : Nat → Except Nat Unit) (init : List Nat)
    (hfail : ∀ cs ∈ init, ∃ e2, attempt cs = Except.error e2) :
    (∀ c e, attempt c = Except.error e →
      start_notify attempt (init ++ [c]) = Except.error (some e)) ∧
    (∀ c rest, attempt c = Except.ok () →
      start_notify attempt (init ++ c :: rest) = Except.ok c) := by
  constructor
  · intro c e hc
    exact loop_all_fail init attempt none c e hfail hc
  · intro c rest hc
    exact loop_first_ok init attempt none c rest hfail hc

/-- Oracle on which every subscription attempt fails; the raised error is
identified with the candidate id. -/
def attempt7 : Nat → Except Nat Unit := fun cs => Except.error cs

/-- Oracle on which only candidate 2 succeeds. -/
def attempt7b : Nat → Except Nat Unit :=
  fun cs => if cs = 2 then Except.ok () else Except.error cs

theorem claim_C7_witness :
    start_notify attempt7 ([1] ++ [2]) = Except.error (some 2) ∧
    start_notify attempt7b ([1] ++ 2 :: [3]) = Except.ok 2 :=
  ⟨(claim_C7 attempt7 [1] (fun cs _ => ⟨cs, rfl⟩)).1 2 2 rfl,
   (claim_C7 attempt7b [1] (by intro cs hcs; simp at hcs; exact ⟨1, by simp [attempt7b, hcs]⟩)).2
     2 [3] rfl⟩

/-- C7 counterexample to the claim as stated: with two candidates that
both fail (candidate 1 raising error 1, candidate 2 raising error 2),
`start_notify` raises error 2 — the error of the last candidate — and not
the error of the first failed candidate. -/
theorem claim_C7_counterexample :
    start_notify attempt7 [1, 2] = Except.error (some 2) ∧
    (some 2 : Option Nat) ≠ some 1 :=
  ⟨rfl, by decide⟩

/-!
Helper lemmas about the inbound reassembly functions.
-/

lemma crc_check_some_length (l : List Nat) (b : Bool)
    (h : _buffer_crc_check l = some b) : MIN_RESPONSE_SIZE ≤ l.length := by
  by_contra hlen
  have hn : l[MIN_RESPONSE_SIZE - 1]? = none := List.getElem?_eq_none (by omega)
  simp [_buffer_crc_check, hn] at h

lemma no_header_drop : ∀ (l : List Nat), find_header_idx l = none →
    ∀ i, (l.drop i).take 4 ≠ HEADER := by
  intro l
  induction l with
  | nil =>
    intro _ i
    simp [HEADER]
  | cons b t ih =>
    intro h i
    by_cases hp : (b :: t).take 4 = HEADER
    · simp [find_header_idx, hp] at h
    · have ht : find_header_idx t = none := by
        have h2 := h
        rw [show find_header_idx (b :: t) =
              if (b :: t).take 4 = HEADER then some 0
              else (find_header_idx t).map (· + 1) from rfl, if_neg hp] at h2
        exact Option.map_eq_none'.mp h2
      cases i with
      | zero => simpa using hp
      | succ j => simpa using ih ht j

lemma find_header_pos_take (l : List Nat) (i : Nat)
    (h : find_header_idx l = some i) (hi : i ≠ 0) : l.take 4 ≠ HEADER := by
  cases l with
  | nil => simp [find_header_idx] at h
  | cons b t =>
    intro hp
    simp [find_header_idx, hp] at h
    exact hi h.symm

/-- C4 (amended): a single fragment made of nonempty garbage followed by a
complete checksum-valid message — where the first occurrence of the magic
header in the fragment is exactly at the start of the message, and the
fragment fails the checksum at its own alignment — yields exactly one
accepted message, namely the message itself, with the garbage discarded
and the accumulation buffer empty afterwards (the checksum having been
re-checked once against the new alignment). -/
theorem claim_C4 (garbage msg : List Nat)
    (hne : garbage ≠ [])
    (hidx : find_header_idx (garbage ++ msg) = some garbage.length)
    (hfail : _buffer_crc_check (garbage ++ msg) = some false)
    (hok : _buffer_crc_check msg = some true) :
    feed_fragments [] [garbage ++ msg] = some ([], [msg]) := by
  have hg0 : garbage.length ≠ 0 := fun h => hne (List.length_eq_zero.mp h)
  have hhd : (garbage ++ msg).take 4 ≠ HEADER := find_header_pos_take _ _ hidx hg0
  have hlen : MIN_RESPONSE_SIZE ≤ (garbage ++ msg).length := crc_check_some_length _ _ hfail
  have hdrop : (garbage ++ msg).drop garbage.length = msg := List.drop_left _ _
  have hh : _notification_handler [] (garbage ++ msg) = some ([], some msg) := by
    simp only [_notification_handler, if_neg hhd, List.nil_append, if_pos hlen, hfail,
      hidx, hdrop, hok]
    simp
  simp [feed_fragments, hh]

/-- Concrete valid 300-byte inbound message: header, 295 zero bytes, and
the correct checksum byte 122. -/
def c4msg : List Nat := HEADER ++ List.replicate 295 0 ++ [122]

theorem claim_C4_witness :
    feed_fragments [] [[1] ++ c4msg] = some ([], [c4msg]) :=
  claim_C4 [1] c4msg (by decide) (by decide) (by decide) (by decide)

/-- Garbage that does not BEGIN with the magic header but CONTAINS it at
offset 1. -/
def c4garbage : List Nat := [0, 0x55, 0xAA, 0xEB, 0x90]

/-- C4 counterexample to the claim as stated: garbage that merely does not
begin with the header (but contains one inside) followed by a valid
message yields ZERO accepted messages — resynchronization truncates at
the header occurrence inside the garbage, the re-check fails there, and
the whole buffer (valid message included) is discarded. -/
theorem claim_C4_counterexample :
    c4garbage.take 4 ≠ HEADER ∧
    _buffer_crc_check (c4garbage ++ c4msg) = some false ∧
    c4msg.take 4 = HEADER ∧
    _buffer_crc_check c4msg = some true ∧
    feed_fragments [] [c4garbage ++ c4msg] = some ([], []) :=
  ⟨by decide, by decide, by decide, by decide, by decide⟩

/-- C9: the resynchronization re-check is not total.  After the buffer is
truncated at the first header occurrence, `_buffer_crc_check` reads index
299 unconditionally; when fewer than `MIN_RESPONSE_SIZE` bytes remain
from the found header to the end of the buffer, `_notification_handler`
raises `IndexError` (modelled `none`) instead of discarding the buffer.
When the first header occurrence is at index 0, the retry re-checks the
same alignment, so the resync is a no-op and the buffer is discarded. -/
theorem claim_C9 (buffer data buf1 : List Nat) (idx : Nat)
    (hbuf : buf1 = (if data.take 4 = HEADER then [] else buffer) ++ data)
    (hmin : MIN_RESPONSE_SIZE ≤ buf1.length)
    (hfail : _buffer_crc_check buf1 = some false)
    (hidx : find_header_idx buf1 = some idx) :
    (buf1.length < idx + MIN_RESPONSE_SIZE → _notification_handler buffer data = none) ∧
    (idx = 0 → _notification_handler buffer data = some ([], none)) := by
  constructor
  · intro hshort
    have hlen2 : (buf1.drop idx).length ≤ MIN_RESPONSE_SIZE - 1 := by
      simp [List.length_drop]
      omega
    have hnone : _buffer_crc_check (buf1.drop idx) = none := by
      simp [_buffer_crc_check, List.getElem?_eq_none hlen2]
    simp only [_notification_handler, ← hbuf, if_pos hmin, hfail, hidx, hnone]
    simp
  · intro h0
    subst h0
    have hdz : buf1.drop 0 = buf1 := List.drop_zero buf1
    simp only [_notification_handler, ← hbuf, if_pos hmin, hfail, hidx, hdz]
    simp

/-- A 301-byte fragment: 297 garbage bytes, then a header with only 4
bytes (fewer than 300) remaining from it to the end. -/
def c9long : List Nat := List.replicate 297 1 ++ HEADER

/-- A 300-byte fragment that begins with the header but carries a wrong
checksum byte. -/
def c9short : List Nat := HEADER ++ List.replicate 296 0

theorem claim_C9_witness :
    _notification_handler [] c9long = none ∧
    _notification_handler [] c9short = some ([], none) :=
  ⟨(claim_C9 [] c9long c9long 297 (by decide) (by decide) (by decide) (by decide)).1
     (by decide),
   (claim_C9 [] c9short c9short 0 (by decide) (by decide) (by decide) (by decide)).2 rfl⟩

/-!
Claim C2: fragmentation robustness.
-/

/-- One evaluation step of `_notification_handler` with the assembled
buffer named. -/
lemma handler_eval (buffer data buf1 : List Nat)
    (hbuf : (if data.take 4 = HEADER then [] else buffer) ++ data = buf1) :
    _notification_handler buffer data =
      (if MIN_RESPONSE_SIZE ≤ buf1.length then
        match _buffer_crc_check buf1 with
        | none => none
        | some crc_ok1 =>
          if crc_ok1 then some (([] : List Nat), some buf1)
          else
            match find_header_idx buf1 with
            | none => some ([], none)
            | some idx =>
              match _buffer_crc_check (buf1.drop idx) with
              | none => none
              | some crc_ok2 =>
                if crc_ok2 then some ([], some (buf1.drop idx)) else some ([], none)
      else some (buf1, none)) := by
  subst hbuf
  rfl

lemma feed_empties : ∀ (rest : List (List Nat)),
    (∀ c ∈ rest, c = ([] : List Nat)) → feed_fragments [] rest = some ([], []) := by
  intro rest
  induction rest with
  | nil =>
    intro _
    rfl
  | cons c t ih =>
    intro h
    have hc : c = [] := h c (by simp)
    subst hc
    have hstep : _notification_handler [] ([] : List Nat) = some ([], none) := by decide
    simp only [feed_fragments, hstep, ih (fun x hx => h x (by simp [hx]))]
    simp

lemma c2_main (msg : List Nat)
    (hcrc : _buffer_crc_check msg = some true)
    (hno : find_header_idx (msg.drop 1) = none) :
    ∀ (chunks : List (List Nat)) (s : Nat), s < MIN_RESPONSE_SIZE →
      chunks.flatten = msg.drop s →
      (∀ k ≤ chunks.length, MIN_RESPONSE_SIZE ≤ s + sumLens (chunks.take k) →
        s + sumLens (chunks.take k) = msg.length) →
      feed_fragments (msg.take s) chunks = some ([], [msg]) := by
  have hmlen : MIN_RESPONSE_SIZE ≤ msg.length := crc_check_some_length _ _ hcrc
  intro chunks
  induction chunks with
  | nil =>
    intro s hs hj _
    exfalso
    have hlen0 : (msg.drop s).length = 0 := by
      rw [← hj]
      rfl
    simp [List.length_drop] at hlen0
    omega
  | cons c rest ih =>
    intro s hs hj hb
    have hcsplit : c ++ rest.flatten = msg.drop s := by simpa using hj
    have hctake : (msg.drop s).take c.length = c := by
      rw [← hcsplit]
      exact List.take_left _ _
    have hrest : rest.flatten = msg.drop (s + c.length) := by
      have h2 : (msg.drop s).drop c.length = rest.flatten := by
        rw [← hcsplit, List.drop_left]
      rw [List.drop_drop] at h2
      exact h2.symm
    have htak : msg.take (s + c.length) = msg.take s ++ c := by
      rw [List.take_add, hctake]
    have hbufeq : (if c.take 4 = HEADER then [] else msg.take s) ++ c =
        msg.take (s + c.length) := by
      by_cases hc4 : c.take 4 = HEADER
      · have hs0 : s = 0 := by
          by_contra hs0
          have hlen4 : 4 ≤ c.length := by
            have hl := congrArg List.length hc4
            simp [HEADER] at hl
            omega
          have h4 : (msg.drop s).take 4 = HEADER := by
            rw [← hctake] at hc4
            rwa [List.take_take, Nat.min_eq_left hlen4] at hc4
          obtain ⟨s1, rfl⟩ : ∃ s1, s = s1 + 1 := ⟨s - 1, by omega⟩
          have hcontra := no_header_drop _ hno s1
          rw [List.drop_drop] at hcontra
          rw [Nat.add_comm 1 s1] at hcontra
          exact hcontra h4
        subst hs0
        rw [if_pos hc4]
        simp at htak ⊢
        exact htak.symm
      · rw [if_neg hc4]
        exact htak.symm
    by_cases hfull : s + c.length < MIN_RESPONSE_SIZE
    · have hstep := handler_eval (msg.take s) c _ hbufeq
      rw [if_neg (by simp [List.length_take]; omega)] at hstep
      have hb2 : ∀ k ≤ rest.length,
          MIN_RESPONSE_SIZE ≤ (s + c.length) + sumLens (rest.take k) →
          (s + c.length) + sumLens (rest.take k) = msg.length := by
        intro k hk hge
        have h2 := hb (k + 1) (by simp; omega)
        rw [List.take_succ_cons] at h2
        simp only [sumLens, List.map_cons, List.sum_cons] at h2
        simp only [sumLens] at hge ⊢
        have h3 := h2 (by omega)
        omega
      have hrec := ih (s + c.length) hfull hrest hb2
      simp only [feed_fragments, hstep, hrec]
      simp
    · have hfull2 : s + c.length = msg.length := by
        have h2 := hb 1 (by simp)
        simp [sumLens] at h2
        have h3 := h2 (by omega)
        omega
      have hbufeq2 : (if c.take 4 = HEADER then [] else msg.take s) ++ c = msg := by
        rw [hbufeq, hfull2, List.take_length]
      have hstep := handler_eval (msg.take s) c msg hbufeq2
      rw [if_pos hmlen, hcrc] at hstep
      have hstep2 : _notification_handler (msg.take s) c = some (([] : List Nat), some msg) := by
        rw [hstep]
        rfl
      have hrest2 : ∀ x ∈ rest, x = ([] : List Nat) := by
        have hfl : rest.flatten = [] := by
          rw [hrest, hfull2, List.drop_length]
        intro x hx
        exact List.flatten_eq_nil_iff.mp hfl x hx
      simp only [feed_fragments, hstep2, feed_empties rest hrest2]
      rfl

/-- C2 (amended): splitting a valid full inbound message into consecutive
byte-level chunks and feeding them sequentially from an empty buffer
yields exactly one accepted message — the full message — provided the
magic header occurs in the message only at offset 0 (otherwise a chunk
boundary at an interior header occurrence makes the handler discard the
accumulated bytes) and no chunk boundary falls at an offset `t` with
`MIN_RESPONSE_SIZE ≤ t < msg.length` (otherwise the handler accepts a
proper prefix of the message early). -/
theorem claim_C2 (msg : List Nat) (chunks : List (List Nat))
    (hcrc : _buffer_crc_check msg = some true)
    (hno : find_header_idx (msg.drop 1) = none)
    (hj : chunks.flatten = msg)
    (hb : ∀ k ≤ chunks.length, MIN_RESPONSE_SIZE ≤ sumLens (chunks.take k) →
            sumLens (chunks.take k) = msg.length) :
    feed_fragments [] chunks = some ([], [msg]) := by
  have h := c2_main msg hcrc hno chunks 0 (by decide) (by simpa using hj)
    (by
      intro k hk hge
      simpa using hb k hk (by simpa using hge))
  simpa using h

theorem claim_C2_witness :
    feed_fragments [] [c4msg.take 150, c4msg.drop 150] = some ([], [c4msg]) :=
  claim_C2 c4msg [c4msg.take 150, c4msg.drop 150] (by decide) (by decide) (by decide)
    (by decide)

/-- Concrete valid 300-byte inbound message that CONTAINS the magic header
a second time at offset 4. -/
def c2msg : List Nat := HEADER ++ HEADER ++ List.replicate 291 0 ++ [244]

/-- C2 counterexample to the claim as stated: a valid full message (magic
header at offset 0, length 300, correct checksum byte) split at offset 4
— immediately before an interior occurrence of the magic header — yields
ZERO accepted messages: the second chunk starts with the header, so the
handler discards the four accumulated bytes and the remaining 296 bytes
never reach the minimum message size. -/
theorem claim_C2_counterexample :
    c2msg.take 4 = HEADER ∧
    c2msg.length = 300 ∧
    _buffer_crc_check c2msg = some true ∧
    [c2msg.take 4, c2msg.drop 4].flatten = c2msg ∧
    feed_fragments [] [c2msg.take 4, c2msg.drop 4] = some (c2msg.drop 4, []) :=
  ⟨by decide, by decide, by decide, by decide, by decide⟩

/-!
Claim C8: the scan-assisted connect retry schedule.
-/

/-- Environment in which the target is always visible but every connect
attempt fails. -/
def envAllFail : ScanEnv := ⟨fun _ => true, fun _ => false⟩

/-- Environment in which the target is never visible to the scanner. -/
def envNoScan : ScanEnv := ⟨fun _ => false, fun _ => true⟩

lemma scan_loop_count (env : ScanEnv) (timeout : ℚ) :
    ∀ (fuel attempt : Nat), attempt ≤ 8 →
      count_attempts (scan_loop env timeout attempt fuel).1 + attempt ≤ 9 := by
  intro fuel
  induction fuel with
  | zero =>
    intro attempt h
    simp [scan_loop, count_attempts]
    omega
  | succ f ih =>
    intro attempt h
    rw [scan_loop]
    by_cases hv : env.visible attempt
    · by_cases hc : env.connect_ok attempt
      · simp [hv, hc, count_attempts]
        omega
      · by_cases h8 : attempt < 8
        · have hrec := ih (attempt + 1) (by omega)
          simp [hv, hc, h8, count_attempts, List.cons_append]
          omega
        · simp [hv, hc, h8, count_attempts]
          omega
    · by_cases h8 : attempt < 8
      · have hrec := ih (attempt + 1) (by omega)
        simp [hv, h8, count_attempts, List.cons_append]
        omega
      · simp [hv, h8, count_attempts]
        omega

lemma scan_loop_half (env : ScanEnv) (timeout : ℚ) :
    ∀ (fuel attempt : Nat) (t : ℚ) (ok : Bool),
      ConnEvent.tryConnect t ok ∈ (scan_loop env timeout attempt fuel).1 →
      t = timeout / 2 := by
  intro fuel
  induction fuel with
  | zero =>
    intro attempt t ok h
    simp [scan_loop] at h
  | succ f ih =>
    intro attempt t ok h
    rw [scan_loop] at h
    by_cases hv : env.visible attempt
    · by_cases hc : env.connect_ok attempt
      · simp [hv, hc] at h
        exact h.1
      · by_cases h8 : attempt < 8
        · simp [hv, hc, h8] at h
          rcases h with h | h
          · exact h.1
          · exact ih (attempt + 1) t ok h
        · simp [hv, hc, h8] at h
          exact h.1
    · by_cases h8 : attempt < 8
      · simp [hv, h8] at h
        exact ih (attempt + 1) t ok h
      · simp [hv, h8] at h

/-- C8: the scan-assisted connect retry schedule.  Every attempt is gated
on the scanner seeing the target (an invisible target is treated exactly
like a failed connect: disconnect, backoff, retry); each connect attempt
uses half the caller-supplied timeout; retry `k + 1` is preceded by a
disconnect and a sleep of `0.2 * 1.5 ^ k` seconds; at most 8 attempts are
made in total, and after the 8th consecutive failure the last underlying
error is raised with no further retries.  Delays are modelled as exact
rationals. -/
theorem claim_C8 (timeout : ℚ) (env : ScanEnv) :
    (_connect_with_scanner envAllFail timeout =
      ([ConnEvent.checkVisible 1 true, ConnEvent.tryConnect (timeout / 2) false,
        ConnEvent.disconnectEv, ConnEvent.sleepEv ((0.2 : ℚ) * (1.5 : ℚ) ^ 1),
        ConnEvent.checkVisible 2 true, ConnEvent.tryConnect (timeout / 2) false,
        ConnEvent.disconnectEv, ConnEvent.sleepEv ((0.2 : ℚ) * (1.5 : ℚ) ^ 2),
        ConnEvent.checkVisible 3 true, ConnEvent.tryConnect (timeout / 2) false,
        ConnEvent.disconnectEv, ConnEvent.sleepEv ((0.2 : ℚ) * (1.5 : ℚ) ^ 3),
        ConnEvent.checkVisible 4 true, ConnEvent.tryConnect (timeout / 2) false,
        ConnEvent.disconnectEv, ConnEvent.sleepEv ((0.2 : ℚ) * (1.5 : ℚ) ^ 4),
        ConnEvent.checkVisible 5 true, ConnEvent.tryConnect (timeout / 2) false,
        ConnEvent.disconnectEv, ConnEvent.sleepEv ((0.2 : ℚ) * (1.5 : ℚ) ^ 5),
        ConnEvent.checkVisible 6 true, ConnEvent.tryConnect (timeout / 2) false,
        ConnEvent.disconnectEv, ConnEvent.sleepEv ((0.2 : ℚ) * (1.5 : ℚ) ^ 6),
        ConnEvent.checkVisible 7 true, ConnEvent.tryConnect (timeout / 2) false,
        ConnEvent.disconnectEv, ConnEvent.sleepEv ((0.2 : ℚ) * (1.5 : ℚ) ^ 7),
        ConnEvent.checkVisible 8 true, ConnEvent.tryConnect (timeout / 2) false,
        ConnEvent.disconnectEv, ConnEvent.stopScan],
       Except.error (ConnErr.connectFail 8))) ∧
    (_connect_with_scanner envNoScan timeout =
      ([ConnEvent.checkVisible 1 false, ConnEvent.disconnectEv,
        ConnEvent.sleepEv ((0.2 : ℚ) * (1.5 : ℚ) ^ 1),
        ConnEvent.checkVisible 2 false, ConnEvent.disconnectEv,
        ConnEvent.sleepEv ((0.2 : ℚ) * (1.5 : ℚ) ^ 2),
        ConnEvent.checkVisible 3 false, ConnEvent.disconnectEv,
        ConnEvent.sleepEv ((0.2 : ℚ) * (1.5 : ℚ) ^ 3),
        ConnEvent.checkVisible 4 false, ConnEvent.disconnectEv,
        ConnEvent.sleepEv ((0.2 : ℚ) * (1.5 : ℚ) ^ 4),
        ConnEvent.checkVisible 5 false, ConnEvent.disconnectEv,
        ConnEvent.sleepEv ((0.2 : ℚ) * (1.5 : ℚ) ^ 5),
        ConnEvent.checkVisible 6 false, ConnEvent.disconnectEv,
        ConnEvent.sleepEv ((0.2 : ℚ) * (1.5 : ℚ) ^ 6),
        ConnEvent.checkVisible 7 false, ConnEvent.disconnectEv,
        ConnEvent.sleepEv ((0.2 : ℚ) * (1.5 : ℚ) ^ 7),
        ConnEvent.checkVisible 8 false, ConnEvent.disconnectEv, ConnEvent.stopScan],
       Except.error (ConnErr.notDiscovered 8))) ∧
    count_attempts (_connect_with_scanner env timeout).1 ≤ 8 ∧
    (∀ t ok, ConnEvent.tryConnect t ok ∈ (_connect_with_scanner env timeout).1 →
      t = timeout / 2) := by
  refine ⟨rfl, rfl, ?_, ?_⟩
  · have := scan_loop_count env timeout 8 1 (by omega)
    simpa [_connect_with_scanner] using this
  · intro t ok h
    exact scan_loop_half env timeout 8 1 t ok h

theorem claim_C8_witness :
    _connect_with_scanner envNoScan 4 =
      ([ConnEvent.checkVisible 1 false, ConnEvent.disconnectEv,
        ConnEvent.sleepEv ((0.2 : ℚ) * (1.5 : ℚ) ^ 1),
        ConnEvent.checkVisible 2 false, ConnEvent.disconnectEv,
        ConnEvent.sleepEv ((0.2 : ℚ) * (1.5 : ℚ) ^ 2),
        ConnEvent.checkVisible 3 false, ConnEvent.disconnectEv,
        ConnEvent.sleepEv ((0.2 : ℚ) * (1.5 : ℚ) ^ 3),
        ConnEvent.checkVisible 4 false, ConnEvent.disconnectEv,
        ConnEvent.sleepEv ((0.2 : ℚ) * (1.5 : ℚ) ^ 4),
        ConnEvent.checkVisible 5 false, ConnEvent.disconnectEv,
        ConnEvent.sleepEv ((0.2 : ℚ) * (1.5 : ℚ) ^ 5),
        ConnEvent.checkVisible 6 false, ConnEvent.disconnectEv,
        ConnEvent.sleepEv ((0.2 : ℚ) * (1.5 : ℚ) ^ 6),
        ConnEvent.checkVisible 7 false, ConnEvent.disconnectEv,
        ConnEvent.sleepEv ((0.2 : ℚ) * (1.5 : ℚ) ^ 7),
        ConnEvent.checkVisible 8 false, ConnEvent.disconnectEv, ConnEvent.stopScan],
       Except.error (ConnErr.notDiscovered 8)) ∧
    count_attempts (_connect_with_scanner envAllFail 4).1 ≤ 8 :=
  ⟨(claim_C8 4 envAllFail).2.1, (claim_C8 4 envAllFail).2.2.1⟩
